import Mathlib

/-!
Verification of the core algorithms of the `weekeepediabot` repository
(`wikipedia_bot.py` and `wikipedia_bot_fixed.py`).

Strings are modelled as `List Char` (Python `len` counts code points, which
matches `List.length` on the decoded character list).  Each Python function of
the core is embedded as a Lean function below; the network and the chat
platform are modelled as explicit environments (`DirectEnv`, `ArticleEnv`)
whose fields are the responses the external collaborators would give, with
`Except Unit` marking calls that may raise.  The outer `try/except` handlers
of the Python code are rendered by mapping every uncaught raise site to the
corresponding fallback value at that point.
-/

/-- Lowercase a string character-wise (Python `str.lower`, ASCII-faithful). -/
def toLowerL (s : List Char) : List Char := s.map Char.toLower

/-- Python `needle in hay` on strings: `needle` occurs contiguously in `hay`.
The empty needle occurs in every string, as in Python. -/
def containsSub : List Char → List Char → Bool
  | needle, [] => needle.isEmpty
  | needle, c :: t => needle.isPrefixOf (c :: t) || containsSub needle t

/-- Python `str.split(sep)` for a two-character separator `[a, b]`:
left-to-right greedy scan; adjacent separators yield empty parts; the result
is never the empty list.  Both separators used by `split_text` ("\n\n" and
". ") have length two, so this covers the source exactly. -/
def splitOn2 (a b : Char) : List Char → List (List Char)
  | [] => [[]]
  | [c] => [[c]]
  | c :: d :: t =>
    if c = a ∧ d = b then
      [] :: splitOn2 a b t
    else
      match splitOn2 a b (d :: t) with
      | [] => [[c]]
      | p :: ps => (c :: p) :: ps

/-- Join a list of parts with a separator (inverse of `splitOn2`). -/
def joinSep (sep : List Char) : List (List Char) → List Char
  | [] => []
  | [p] => p
  | p :: q :: ps => p ++ sep ++ joinSep sep (q :: ps)

/-- The paragraph separator `"\n\n"` of `split_text`. -/
def parSep : List Char := ['\n', '\n']

/-- The sentence separator `". "` of `split_text`. -/
def sentSep : List Char := ['.', ' ']

/-- The mutable loop state of `split_text`: the completed `chunks` list and
the accumulation buffer `current` (Python `current_chunk`). -/
structure SplitSt where
  chunks : List (List Char)
  current : List Char

/-- One iteration of the inner sentence loop of `split_text`
(`for sentence in sentences: ...`). -/
def addSentence (L : Nat) (st : SplitSt) (s : List Char) : SplitSt :=
  if st.current.length + s.length + 2 ≤ L then
    if st.current = [] then
      { st with current := s }
    else
      { st with current := st.current ++ sentSep ++ s }
  else
    if st.current = [] then
      { st with current := s }
    else
      { chunks := st.chunks ++ [st.current], current := s }

/-- One iteration of the outer paragraph loop of `split_text`
(`for paragraph in paragraphs: ...`).  When the paragraph does not fit and
the buffer is empty, the paragraph is split at sentence granularity. -/
def addParagraph (L : Nat) (st : SplitSt) (p : List Char) : SplitSt :=
  if st.current.length + p.length + 2 ≤ L then
    if st.current = [] then
      { st with current := p }
    else
      { st with current := st.current ++ parSep ++ p }
  else
    if st.current = [] then
      (splitOn2 '.' ' ' p).foldl (addSentence L) st
    else
      { chunks := st.chunks ++ [st.current], current := p }

/-- The trailing flush of `split_text`
(`if current_chunk: chunks.append(current_chunk)`). -/
def finishSplit (st : SplitSt) : List (List Char) :=
  if st.current = [] then st.chunks else st.chunks ++ [st.current]

/-- `WikipediaBot.split_text(text, max_length)` (identical in both source
files): texts no longer than the ceiling are returned whole; otherwise the
text is split on `"\n\n"` and greedily re-accumulated, with a nested
sentence-level split on `". "` for a paragraph that overflows an empty
buffer; a non-empty trailing buffer is flushed at the end. -/
def split_text (text : List Char) (maxLength : Nat) : List (List Char) :=
  if text.length ≤ maxLength then
    [text]
  else
    finishSplit ((splitOn2 '\n' '\n' text).foldl (addParagraph maxLength) ⟨[], []⟩)

/-- Keyword penalty table of `score_page_title` (`wikipedia_bot.py`). -/
def penalties1 : List (List Char × Int) :=
  [("album".data, -60), ("song".data, -60), ("single".data, -60),
   ("discography".data, -70), ("tour".data, -50), ("live".data, -50),
   ("compilation".data, -40), ("greatest hits".data, -40)]

/-- Separator list of `score_page_title` (`wikipedia_bot.py`). -/
def separators1 : List (List Char) :=
  [" – ".data, " - ".data, ": ".data, "(album)".data, "(song)".data]

/-- `score_page_title(page_title, search_term)` from `wikipedia_bot.py`:
sequential score accumulation exactly as in the source. -/
def score_page_title (page_title search_term : List Char) : Int :=
  let title_lower := toLowerL page_title
  let search_lower := toLowerL search_term
  let score : Int :=
    if title_lower = search_lower then 100
    else if containsSub search_lower title_lower then 50
    else 0
  let score :=
    penalties1.foldl
      (fun sc kp => if containsSub kp.1 title_lower then sc + kp.2 else sc) score
  let score :=
    if separators1.any (fun sep => containsSub sep page_title) then
      if containsSub ("(band)".data) page_title
          || containsSub ("(musician)".data) page_title then
        score + 20
      else
        score - 30
    else score
  let score :=
    if page_title.length < 15 then score + 15
    else if page_title.length > 30 then score - 10
    else score
  score

/-- Keyword penalty table of `score_page` (`wikipedia_bot_fixed.py`). -/
def penalties2 : List (List Char × Int) :=
  [("discography".data, -40), ("album".data, -30), ("song".data, -30),
   ("tour".data, -25), ("live".data, -25), ("compilation".data, -20)]

/-- Separator list of `score_page` (`wikipedia_bot_fixed.py`). -/
def separators2 : List (List Char) :=
  [" – ".data, " - ".data, ": ".data]

/-- `score_page(page, search_term)` from `wikipedia_bot_fixed.py`, applied to
the page's title string: note the different penalty table, the `+10` bonus
(instead of `+20`), the `-15` separator penalty, and the length rule
`len < 20 → +10` with no long-title penalty. -/
def score_page (original_title search_term : List Char) : Int :=
  let page_title := toLowerL original_title
  let search_lower := toLowerL search_term
  let score : Int :=
    if page_title = search_lower then 100
    else if containsSub search_lower page_title then 50
    else 0
  let score :=
    penalties2.foldl
      (fun sc kp => if containsSub kp.1 page_title then sc + kp.2 else sc) score
  let score :=
    if separators2.any (fun sep => containsSub sep original_title) then
      if containsSub ("(band)".data) original_title
          || containsSub ("(musician)".data) original_title then
        score + 10
      else
        score - 15
    else score
  let score := if original_title.length < 20 then score + 10 else score
  score

/-- Keyword penalty table of `score_library_result` (`wikipedia_bot.py`,
inside the `PageError` fallback of `get_article`). -/
def penalties3 : List (List Char × Int) :=
  [("album".data, -50), ("song".data, -50), ("single".data, -50),
   ("discography".data, -60), ("tour".data, -40), ("live".data, -40),
   ("compilation".data, -30), ("greatest hits".data, -30)]

/-- `score_library_result(result, search_term)` from `wikipedia_bot.py`:
the parenthesis check is `'(' in result and ')' in result`, and the
band/musician allow-list is checked on the lowercased string. -/
def score_library_result (result search_term : List Char) : Int :=
  let result_lower := toLowerL result
  let search_lower := toLowerL search_term
  let score : Int :=
    if result_lower = search_lower then 100
    else if containsSub search_lower result_lower then 50
    else 0
  let score :=
    penalties3.foldl
      (fun sc kp => if containsSub kp.1 result_lower then sc + kp.2 else sc) score
  let score :=
    if containsSub ['('] result && containsSub [')'] result then
      if containsSub ("(band)".data) result_lower
          || containsSub ("(musician)".data) result_lower then
        score + 20
      else
        score - 25
    else score
  let score :=
    if result.length < 15 then score + 15
    else if result.length > 30 then score - 10
    else score
  score

/-- Stable insertion into a descending-by-score list: an element goes after
every earlier element with a strictly larger score and before the first
element whose score is not larger, so equal scores keep original order. -/
def insertDesc (x : Int × List Char) : List (Int × List Char) → List (Int × List Char)
  | [] => [x]
  | y :: ys => if y.1 > x.1 then y :: insertDesc x ys else x :: y :: ys

/-- Stable descending sort by score: the unique output of Python
`list.sort(key=lambda x: x[0], reverse=True)`, which is stable. -/
def sortDesc : List (Int × List Char) → List (Int × List Char)
  | [] => []
  | x :: xs => insertDesc x (sortDesc xs)

/-- Candidate selection of `get_wikipedia_page_direct` (`wikipedia_bot.py`):
`scored_pages = [(score_page_title(title, title), title) for title in page_titles]`.
The comprehension variable `title` shadows the enclosing query parameter, so
every candidate is scored against itself; the query (`search`) is therefore
unused, exactly as in the source. -/
def best_page_title (page_titles : List (List Char)) (search : List Char) : List Char :=
  let scored := page_titles.map (fun t => (score_page_title t t, t))
  ((sortDesc scored).headD (0, search.take 0)).2

/-- The record built by `get_wikipedia_page_direct` from the summary
endpoint's response (`title` / `summary` / `url` / `image` keys). -/
structure PageData where
  title : List Char
  summary : List Char
  url : List Char
  image : List Char
deriving DecidableEq

/-- The fields of the summary endpoint's JSON that the source reads, each
`none` when the key is missing (Python `dict.get` default):
`title`, `extract`, `content_urls.desktop.page`, `thumbnail.source`. -/
structure ContentData where
  title : Option (List Char)
  extract : Option (List Char)
  url : Option (List Char)
  thumbnailSource : Option (List Char)
deriving DecidableEq

/-- The external responses seen by one call of `get_wikipedia_page_direct`:
the opensearch reply (a title list, or `error` for any transport, JSON or
shape failure, including `len(search_data) < 2`) and the summary endpoint
reply as a function of the requested title. -/
structure DirectEnv where
  searchResp : Except Unit (List (List Char))
  contentResp : List Char → Except Unit ContentData

/-- `get_wikipedia_page_direct(title)` from `wikipedia_bot.py`: the whole
body is wrapped in `try/except Exception: return None`, so every raise site
is rendered as `none`; an empty title list (`not search_data[1]`) is also
`none`; otherwise the best-scored candidate's summary is fetched and the
result record is built with empty-string defaults. -/
def get_wikipedia_page_direct (env : DirectEnv) (title : List Char) : Option PageData :=
  match env.searchResp with
  | Except.error _ => none
  | Except.ok page_titles =>
    if page_titles = [] then none
    else
      let best := best_page_title page_titles title
      match env.contentResp best with
      | Except.error _ => none
      | Except.ok cd =>
        some { title := cd.title.getD best, summary := cd.extract.getD [],
               url := cd.url.getD [], image := cd.thumbnailSource.getD [] }

/-- Outcome of the library call `wikipedia.page(title, auto_suggest=True)`:
success, a `DisambiguationError` carrying its ordered option list, a
`PageError`, or any other exception. -/
inductive LibFetch where
  | ok (p : List Char)
  | disambig (options : List (List Char))
  | pageError
  | otherError
deriving DecidableEq

/-- Outcome of `handle_page_not_found`: a suggestion keyboard, the plain
guidance message (empty suggestion list), or the fallback message sent when
the suggestion search itself raises (also an empty suggestion list). -/
inductive NFReply where
  | suggestions (l : List (List Char))
  | guidance
  | searchFailed
deriving DecidableEq

/-- The reply `get_article` produces: stage-1 summary, library-page summary,
the not-found guidance path, or the generic error message sent by the outer
`except Exception` handler of `get_article`. -/
inductive Reply where
  | directSummary (d : PageData)
  | articleSummary (p : List Char)
  | notFound (r : NFReply)
  | errorReply
deriving DecidableEq

/-- The external responses seen by one call of `get_article`
(`wikipedia_bot.py`): the stage-1 environment, the library fetch for the
query, the plain fetch used for the first disambiguation option, the
`wikipedia.search(title, results=8)` reply of the `PageError` branch, the
auto-suggest fetch used inside that branch's loop, and the separate
`wikipedia.search(title, results=8)` reply made by `handle_page_not_found`. -/
structure ArticleEnv where
  denv : DirectEnv
  libPage : LibFetch
  fetchPlain : List Char → Except Unit (List Char)
  searchResp : Except Unit (List (List Char))
  fetchAuto : List Char → Except Unit (List Char)
  nfSearchResp : Except Unit (List (List Char))

/-- The `for score, result in scored_results:` loop of the `PageError`
branch: fetch candidates in order, skipping failures, until one succeeds. -/
def firstFetch (f : List Char → Except Unit (List Char)) : List (List Char) → Option (List Char)
  | [] => none
  | r :: rs =>
    match f r with
    | Except.ok p => some p
    | Except.error _ => firstFetch f rs

/-- The `PageError` fallback of `get_article` (`wikipedia_bot.py`): search,
score each result against the query with `score_library_result`, sort
descending (stable), and fetch in scored order; the surrounding
`try/except: pass` makes any search failure yield `none`. -/
def searchStage (env : ArticleEnv) (title : List Char) : Option (List Char) :=
  match env.searchResp with
  | Except.error _ => none
  | Except.ok search_results =>
    let scored := search_results.map (fun r => (score_library_result r title, r))
    firstFetch env.fetchAuto ((sortDesc scored).map (fun x => x.2))

/-- `handle_page_not_found(title)` (`wikipedia_bot.py`): one more search
(requested with `results=8`), drop results equal to the query
case-insensitively, show the first 3 remaining in search order, or the plain
guidance message when none remain; a raise inside is caught and yields the
fallback message. -/
def handle_page_not_found (searchResp : Except Unit (List (List Char)))
    (title : List Char) : NFReply :=
  match searchResp with
  | Except.error _ => NFReply.searchFailed
  | Except.ok search_results =>
    let filtered :=
      search_results.filter (fun r => decide (toLowerL r ≠ toLowerL title))
    if filtered = [] then NFReply.guidance
    else NFReply.suggestions (filtered.take 3)

/-- `get_article(message, title)` from `wikipedia_bot.py`.  The outer
`try/except Exception` turns every uncaught raise into the generic error
reply (`errorReply`); in particular `e.options[0]` on an empty option list
and a failing `wikipedia.page(e.options[0])` inside the
`except DisambiguationError` handler are NOT caught by any inner handler.
Message sending is modelled as returning the composed reply. -/
def get_article (env : ArticleEnv) (title : List Char) : Reply :=
  match get_wikipedia_page_direct env.denv title with
  | some d => Reply.directSummary d
  | none =>
    match env.libPage with
    | LibFetch.ok p => Reply.articleSummary p
    | LibFetch.disambig opts =>
      match opts with
      | [] => Reply.errorReply
      | o :: _ =>
        match env.fetchPlain o with
        | Except.ok p => Reply.articleSummary p
        | Except.error _ => Reply.errorReply
    | LibFetch.pageError =>
      match searchStage env title with
      | some p => Reply.articleSummary p
      | none => Reply.notFound (handle_page_not_found env.nfSearchResp title)
    | LibFetch.otherError => Reply.errorReply

/-- Reference base-relevance component from the claim's words: `+100` on
case-insensitive equality, else `+50` on substring, else `0`. -/
def baseRelevance (page_title search_term : List Char) : Int :=
  if toLowerL page_title = toLowerL search_term then 100
  else if containsSub (toLowerL search_term) (toLowerL page_title) then 50
  else 0

/-- Reference keyword component from the claim's words: the sum of the fixed
penalties of the table keywords present in the lowercased title. -/
def keywordPenaltySum (table : List (List Char × Int)) (title_lower : List Char) : Int :=
  table.foldl (fun acc kp => if containsSub kp.1 title_lower then acc + kp.2 else acc) 0

/-- Reference separator component from the claim's words: the `(band)` /
`(musician)` bonus or the flat separator penalty when a separator occurs. -/
def separatorAdj (page_title : List Char) : Int :=
  if separators1.any (fun sep => containsSub sep page_title) then
    if containsSub ("(band)".data) page_title
        || containsSub ("(musician)".data) page_title then 20
    else -30
  else 0

/-- The additive reference scorer stated by the claim: base relevance, plus
the keyword penalties, plus the separator adjustment, plus `+15` for titles
shorter than 15 characters and `-10` for titles longer than 30. -/
def scoreRef (page_title search_term : List Char) : Int :=
  baseRelevance page_title search_term
  + keywordPenaltySum penalties1 (toLowerL page_title)
  + separatorAdj page_title
  + (if page_title.length < 15 then 15 else 0)
  + (if page_title.length > 30 then -10 else 0)

/-- The suggestion list stated by the claim for `handle_page_not_found`:
drop the results equal to the query case-insensitively, keep the first 3
remaining in original order. -/
def suggestionsSpec (search_results : List (List Char)) (title : List Char) : List (List Char) :=
  (search_results.filter (fun r => decide (toLowerL r ≠ toLowerL title))).take 3

/-- Reconstruction of a text from a chunk sequence with one separator
reinserted at each chunk boundary. -/
def reconSeps : List (List Char) → List (List Char) → List Char
  | [], _ => []
  | c :: _, [] => c
  | c :: cs, s :: ss => c ++ s ++ reconSeps cs ss

/-- Reconstruction of the text represented by an intermediate `split_text`
state: the flushed chunks, each followed by its recorded boundary separator,
then the accumulation buffer. -/
def glueChunks : List (List Char) → List (List Char) → List Char → List Char
  | [], _, cur => cur
  | c :: cs, [], cur => c ++ glueChunks cs [] cur
  | c :: cs, s :: ss, cur => c ++ s ++ glueChunks cs ss cur

/-- A chunk admissible for the amended bound claim: within the ceiling, or
verbatim one paragraph of the input, or verbatim one sentence of one
paragraph of the input. -/
def chunkOK (T : List Char) (L : Nat) (c : List Char) : Prop :=
  c.length ≤ L ∨ c ∈ splitOn2 '\n' '\n' T
    ∨ ∃ p, p ∈ splitOn2 '\n' '\n' T ∧ c ∈ splitOn2 '.' ' ' p

/-- Loop invariant for the amended bound claim: every flushed chunk and the
buffer are admissible. -/
def stOK (T : List Char) (L : Nat) (st : SplitSt) : Prop :=
  (∀ c ∈ st.chunks, chunkOK T L c) ∧ chunkOK T L st.current

/-- A boundary separator is one of the two separators of `split_text`. -/
def sepOK (s : List Char) : Prop := s = parSep ∨ s = sentSep

/-- Loop invariant for the reconstruction claim: some list of recorded
boundary separators glues the state back to the already-processed text. -/
def InvG (X : List Char) (st : SplitSt) : Prop :=
  ∃ S, S.length = st.chunks.length ∧ (∀ s ∈ S, sepOK s)
    ∧ glueChunks st.chunks S st.current = X

/-! ## General lemmas about the embedded string operations -/

theorem splitOn2_ne_nil (a b : Char) : ∀ s : List Char, splitOn2 a b s ≠ []
  | [] => by simp [splitOn2]
  | [c] => by simp [splitOn2]
  | c :: d :: t => by
    unfold splitOn2
    split
    · simp
    · cases h : splitOn2 a b (d :: t) <;> simp

theorem joinSep_splitOn2 (a b : Char) :
    ∀ s : List Char, joinSep [a, b] (splitOn2 a b s) = s
  | [] => rfl
  | [c] => rfl
  | c :: d :: t => by
    unfold splitOn2
    by_cases hab : c = a ∧ d = b
    · rw [if_pos hab]
      obtain ⟨h1, h2⟩ := hab
      subst h1; subst h2
      cases hs : splitOn2 c d t with
      | nil => exact absurd hs (splitOn2_ne_nil c d t)
      | cons q qs =>
        have ih := joinSep_splitOn2 c d t
        rw [hs] at ih
        simp only [joinSep, List.nil_append]
        rw [ih]
        rfl
    · rw [if_neg hab]
      cases hs : splitOn2 a b (d :: t) with
      | nil => exact absurd hs (splitOn2_ne_nil a b (d :: t))
      | cons p ps =>
        have ih := joinSep_splitOn2 a b (d :: t)
        rw [hs] at ih
        cases ps with
        | nil =>
          simp only [joinSep] at ih ⊢
          rw [ih]
        | cons q qs =>
          simp only [joinSep, List.cons_append] at ih ⊢
          rw [← ih]

/-- Fold preservation: an invariant that each step keeps (given the element
comes from the folded list) holds of the final state. -/
theorem foldl_pres {α β : Type} (f : β → α → β) (P : α → Prop) (Q : β → Prop)
    (step : ∀ b a, Q b → P a → Q (f b a)) :
    ∀ (l : List α) (b : β), (∀ a ∈ l, P a) → Q b → Q (l.foldl f b)
  | [], _, _, hb => hb
  | a :: l, b, h, hb =>
    foldl_pres f P Q step l (f b a)
      (fun x hx => h x (List.mem_cons_of_mem a hx))
      (step b a hb (h a (List.mem_cons_self a l)))

/-! ## The chunk-admissibility invariant (claim C1) -/

theorem addSentence_stOK (T : List Char) (L : Nat) (p : List Char)
    (hp : p ∈ splitOn2 '\n' '\n' T) (st : SplitSt) (s : List Char)
    (hst : stOK T L st) (hs : s ∈ splitOn2 '.' ' ' p) :
    stOK T L (addSentence L st s) := by
  obtain ⟨hch, hcur⟩ := hst
  have hsOK : chunkOK T L s := Or.inr (Or.inr ⟨p, hp, hs⟩)
  unfold addSentence
  by_cases hfit : st.current.length + s.length + 2 ≤ L
  · rw [if_pos hfit]
    by_cases hemp : st.current = []
    · rw [if_pos hemp]
      exact ⟨hch, hsOK⟩
    · rw [if_neg hemp]
      refine ⟨hch, Or.inl ?_⟩
      simp only [List.length_append, sentSep, List.length_cons, List.length_nil]
      omega
  · rw [if_neg hfit]
    by_cases hemp : st.current = []
    · rw [if_pos hemp]
      exact ⟨hch, hsOK⟩
    · rw [if_neg hemp]
      refine ⟨?_, hsOK⟩
      intro c hc
      rcases List.mem_append.1 hc with h | h
      · exact hch c h
      · simp only [List.mem_singleton] at h
        subst h
        exact hcur

theorem addParagraph_stOK (T : List Char) (L : Nat) (st : SplitSt) (p : List Char)
    (hst : stOK T L st) (hp : p ∈ splitOn2 '\n' '\n' T) :
    stOK T L (addParagraph L st p) := by
  obtain ⟨hch, hcur⟩ := hst
  have hpOK : chunkOK T L p := Or.inr (Or.inl hp)
  unfold addParagraph
  by_cases hfit : st.current.length + p.length + 2 ≤ L
  · rw [if_pos hfit]
    by_cases hemp : st.current = []
    · rw [if_pos hemp]
      exact ⟨hch, hpOK⟩
    · rw [if_neg hemp]
      refine ⟨hch, Or.inl ?_⟩
      simp only [List.length_append, parSep, List.length_cons, List.length_nil]
      omega
  · rw [if_neg hfit]
    by_cases hemp : st.current = []
    · rw [if_pos hemp]
      exact foldl_pres (addSentence L) (fun s => s ∈ splitOn2 '.' ' ' p) (stOK T L)
        (fun b a hb ha => addSentence_stOK T L p hp b a hb ha)
        (splitOn2 '.' ' ' p) st (fun a ha => ha) ⟨hch, hcur⟩
    · rw [if_neg hemp]
      refine ⟨?_, hpOK⟩
      intro c hc
      rcases List.mem_append.1 hc with h | h
      · exact hch c h
      · simp only [List.mem_singleton] at h
        subst h
        exact hcur

/-! ## Claim C1: chunk length bound -/

/-- C1 counterexample: with ceiling 10, the text
`"aa\n\nbbbb. cccc. dddd"` produces the chunk `"bbbb. cccc. dddd"` of length
16 > 10 which contains the sentence separator `". "`, so it is not an atomic
sentence: an oversized paragraph reaching a non-empty buffer is flushed whole
without the sentence-level split, refuting the claim that the only oversized
chunks are sentence-separator-free units. -/
theorem c1_counterexample :
    split_text ("aa\n\nbbbb. cccc. dddd".data) 10
      = ["aa".data, "bbbb. cccc. dddd".data]
    ∧ 10 < ("bbbb. cccc. dddd".data).length
    ∧ containsSub sentSep ("bbbb. cccc. dddd".data) = true := by
  decide

/-- C1 (amended): every chunk of `split_text T L` either has length at most
`L`, or is verbatim one paragraph of `T`, or is verbatim one sentence of one
paragraph of `T`; oversized chunks need not be atomic sentences because the
sentence-level split runs only when a paragraph overflows an empty buffer. -/
theorem c1_chunk_length_amended (T : List Char) (L : Nat) (c : List Char)
    (hc : c ∈ split_text T L) :
    c.length ≤ L ∨ c ∈ splitOn2 '\n' '\n' T
      ∨ ∃ p, p ∈ splitOn2 '\n' '\n' T ∧ c ∈ splitOn2 '.' ' ' p := by
  unfold split_text at hc
  by_cases hlen : T.length ≤ L
  · rw [if_pos hlen] at hc
    simp only [List.mem_singleton] at hc
    subst hc
    exact Or.inl hlen
  · rw [if_neg hlen] at hc
    have hQ : stOK T L ((splitOn2 '\n' '\n' T).foldl (addParagraph L) ⟨[], []⟩) :=
      foldl_pres (addParagraph L) (fun p => p ∈ splitOn2 '\n' '\n' T) (stOK T L)
        (fun b a hb ha => addParagraph_stOK T L b a hb ha)
        (splitOn2 '\n' '\n' T) ⟨[], []⟩ (fun a ha => ha)
        ⟨by intro x hx; simp at hx, Or.inl (by simp)⟩
    obtain ⟨hch, hcur⟩ := hQ
    unfold finishSplit at hc
    by_cases hemp :
        ((splitOn2 '\n' '\n' T).foldl (addParagraph L) ⟨[], []⟩).current = []
    · rw [if_pos hemp] at hc
      exact hch c hc
    · rw [if_neg hemp] at hc
      rcases List.mem_append.1 hc with h | h
      · exact hch c h
      · simp only [List.mem_singleton] at h
        subst h
        exact hcur

/-- C1 amended witness: the oversized paragraph chunk of the counterexample
text is admissible under the amended statement. -/
theorem c1_chunk_length_amended_witness :
    (("bbbb. cccc. dddd".data) ∈ split_text ("aa\n\nbbbb. cccc. dddd".data) 10)
    ∧ (("bbbb. cccc. dddd".data).length ≤ 10
        ∨ ("bbbb. cccc. dddd".data) ∈ splitOn2 '\n' '\n' ("aa\n\nbbbb. cccc. dddd".data)
        ∨ ∃ p, p ∈ splitOn2 '\n' '\n' ("aa\n\nbbbb. cccc. dddd".data)
            ∧ ("bbbb. cccc. dddd".data) ∈ splitOn2 '.' ' ' p) :=
  ⟨by decide,
    c1_chunk_length_amended ("aa\n\nbbbb. cccc. dddd".data) 10
      ("bbbb. cccc. dddd".data) (by decide)⟩

/-! ## Claim C7: small texts are returned whole -/

/-- C7: for every text no longer than the (positive) ceiling, including the
empty text, `split_text` returns exactly the one-element sequence `[T]`. -/
theorem c7_small_text_identity (T : List Char) (L : Nat) (_hL : 0 < L)
    (hlen : T.length ≤ L) : split_text T L = [T] := by
  unfold split_text
  rw [if_pos hlen]

/-- C7 witness: the empty text with ceiling 5. -/
theorem c7_small_text_identity_witness :
    (0 < 5 ∧ ([] : List Char).length ≤ 5) ∧ split_text [] 5 = [[]] :=
  ⟨⟨by decide, by decide⟩, c7_small_text_identity [] 5 (by decide) (by decide)⟩

/-! ## Claim C6: idempotence on output chunks -/

/-- C6 counterexample: the oversized chunk `"bbbb. cccc. dddd"` of
`split_text "aa\n\nbbbb. cccc. dddd" 10` re-chunks into two pieces, not into
itself, refuting idempotence for arbitrary output chunks. -/
theorem c6_counterexample :
    ("bbbb. cccc. dddd".data) ∈ split_text ("aa\n\nbbbb. cccc. dddd".data) 10
    ∧ split_text ("bbbb. cccc. dddd".data) 10
        = ["bbbb. cccc".data, "dddd".data]
    ∧ split_text ("bbbb. cccc. dddd".data) 10 ≠ [("bbbb. cccc. dddd".data)] := by
  decide

/-- C6 (amended): re-chunking is the identity on every already-compliant
output chunk, i.e. every chunk whose length is within the ceiling. -/
theorem c6_idempotent_amended (T : List Char) (L : Nat) (c : List Char)
    (_hc : c ∈ split_text T L) (hlen : c.length ≤ L) :
    split_text c L = [c] := by
  unfold split_text
  rw [if_pos hlen]

/-- C6 amended witness: the compliant chunk `"aa"` of the counterexample text
re-chunks to itself. -/
theorem c6_idempotent_amended_witness :
    (("aa".data) ∈ split_text ("aa\n\nbbbb. cccc. dddd".data) 10
      ∧ ("aa".data).length ≤ 10)
    ∧ split_text ("aa".data) 10 = [("aa".data)] :=
  ⟨⟨by decide, by decide⟩,
    c6_idempotent_amended ("aa\n\nbbbb. cccc. dddd".data) 10 ("aa".data)
      (by decide) (by decide)⟩

/-! ## Reconstruction lemmas (claim C5) -/

theorem glue_extend : ∀ (C S : List (List Char)) (cur y : List Char),
    glueChunks C S (cur ++ y) = glueChunks C S cur ++ y
  | [], _, _, _ => rfl
  | c :: cs, [], cur, y => by
    simp [glueChunks, glue_extend cs [] cur y]
  | c :: cs, s :: ss, cur, y => by
    simp [glueChunks, glue_extend cs ss cur y]

theorem glue_flush : ∀ (C S : List (List Char)), S.length = C.length →
    ∀ (cur s cur' : List Char),
    glueChunks (C ++ [cur]) (S ++ [s]) cur' = glueChunks C S (cur ++ s ++ cur')
  | [], [], _, cur, s, cur' => by simp [glueChunks]
  | [], q :: qs, h, _, _, _ => by simp at h
  | c :: cs, [], h, _, _, _ => by simp at h
  | c :: cs, q :: qs, h, cur, s, cur' => by
    simp [glueChunks, glue_flush cs qs (by simpa using h) cur s cur']

theorem recon_glue : ∀ (C S : List (List Char)), S.length = C.length →
    ∀ cur : List Char, reconSeps (C ++ [cur]) S = glueChunks C S cur
  | [], [], _, _ => rfl
  | [], q :: qs, h, _ => by simp at h
  | c :: cs, [], h, _ => by simp at h
  | c :: cs, q :: qs, h, cur => by
    simp [reconSeps, glueChunks, recon_glue cs qs (by simpa using h) cur]

theorem foldl_prefix (sep : List Char) :
    ∀ (ss : List (List Char)) (z y : List Char),
    ss.foldl (fun a s => a ++ sep ++ s) (z ++ y)
      = z ++ ss.foldl (fun a s => a ++ sep ++ s) y
  | [], _, _ => rfl
  | t :: ts, z, y => by
    simp only [List.foldl_cons]
    have hassoc : z ++ y ++ sep ++ t = z ++ (y ++ sep ++ t) := by simp
    rw [hassoc]
    exact foldl_prefix sep ts z (y ++ sep ++ t)

theorem joinSep_foldl (sep : List Char) :
    ∀ (ss : List (List Char)) (x : List Char),
    joinSep sep (x :: ss) = ss.foldl (fun a s => a ++ sep ++ s) x
  | [], _ => rfl
  | y :: ts, x => by
    simp only [List.foldl_cons, joinSep]
    rw [joinSep_foldl sep ts y, foldl_prefix sep ts (x ++ sep) y]

theorem addSentence_glue (L : Nat) (st : SplitSt) (X s : List Char)
    (hcur : st.current ≠ []) (hInv : InvG X st) (hs : s ≠ []) :
    InvG (X ++ sentSep ++ s) (addSentence L st s)
      ∧ (addSentence L st s).current ≠ [] := by
  obtain ⟨S, hlen, hsep, hglue⟩ := hInv
  unfold addSentence
  by_cases hfit : st.current.length + s.length + 2 ≤ L
  · rw [if_pos hfit, if_neg hcur]
    constructor
    · refine ⟨S, hlen, hsep, ?_⟩
      show glueChunks st.chunks S (st.current ++ sentSep ++ s) = X ++ sentSep ++ s
      rw [glue_extend st.chunks S (st.current ++ sentSep) s,
        glue_extend st.chunks S st.current sentSep, hglue]
    · show st.current ++ sentSep ++ s ≠ []
      simp [hcur]
  · rw [if_neg hfit, if_neg hcur]
    refine ⟨⟨S ++ [sentSep], ?_, ?_, ?_⟩, hs⟩
    · show (S ++ [sentSep]).length = (st.chunks ++ [st.current]).length
      simp [hlen]
    · intro x hx
      rcases List.mem_append.1 hx with h | h
      · exact hsep x h
      · simp only [List.mem_singleton] at h
        subst h
        exact Or.inr rfl
    · show glueChunks (st.chunks ++ [st.current]) (S ++ [sentSep]) s
        = X ++ sentSep ++ s
      rw [glue_flush st.chunks S hlen st.current sentSep s,
        glue_extend st.chunks S (st.current ++ sentSep) s,
        glue_extend st.chunks S st.current sentSep, hglue]

theorem addParagraph_glue (L : Nat) (st : SplitSt) (X p : List Char)
    (hcur : st.current ≠ []) (hInv : InvG X st) (hp : p ≠ []) :
    InvG (X ++ parSep ++ p) (addParagraph L st p)
      ∧ (addParagraph L st p).current ≠ [] := by
  obtain ⟨S, hlen, hsep, hglue⟩ := hInv
  unfold addParagraph
  by_cases hfit : st.current.length + p.length + 2 ≤ L
  · rw [if_pos hfit, if_neg hcur]
    constructor
    · refine ⟨S, hlen, hsep, ?_⟩
      show glueChunks st.chunks S (st.current ++ parSep ++ p) = X ++ parSep ++ p
      rw [glue_extend st.chunks S (st.current ++ parSep) p,
        glue_extend st.chunks S st.current parSep, hglue]
    · show st.current ++ parSep ++ p ≠ []
      simp [hcur]
  · rw [if_neg hfit, if_neg hcur]
    refine ⟨⟨S ++ [parSep], ?_, ?_, ?_⟩, hp⟩
    · show (S ++ [parSep]).length = (st.chunks ++ [st.current]).length
      simp [hlen]
    · intro x hx
      rcases List.mem_append.1 hx with h | h
      · exact hsep x h
      · simp only [List.mem_singleton] at h
        subst h
        exact Or.inl rfl
    · show glueChunks (st.chunks ++ [st.current]) (S ++ [parSep]) p
        = X ++ parSep ++ p
      rw [glue_flush st.chunks S hlen st.current parSep p,
        glue_extend st.chunks S (st.current ++ parSep) p,
        glue_extend st.chunks S st.current parSep, hglue]

theorem sentFold_glue (L : Nat) :
    ∀ (ss : List (List Char)) (st : SplitSt) (X : List Char),
    st.current ≠ [] → InvG X st → (∀ s ∈ ss, s ≠ []) →
    InvG (ss.foldl (fun a s => a ++ sentSep ++ s) X) (ss.foldl (addSentence L) st)
      ∧ (ss.foldl (addSentence L) st).current ≠ []
  | [], _, _, hcur, hInv, _ => ⟨hInv, hcur⟩
  | s :: ss, st, X, hcur, hInv, hne => by
    simp only [List.foldl_cons]
    have h1 := addSentence_glue L st X s hcur hInv (hne s (List.mem_cons_self s ss))
    exact sentFold_glue L ss (addSentence L st s) (X ++ sentSep ++ s) h1.2 h1.1
      (fun x hx => hne x (List.mem_cons_of_mem s hx))

theorem parFold_glue (L : Nat) :
    ∀ (ps : List (List Char)) (st : SplitSt) (X : List Char),
    st.current ≠ [] → InvG X st → (∀ p ∈ ps, p ≠ []) →
    InvG (ps.foldl (fun a p => a ++ parSep ++ p) X) (ps.foldl (addParagraph L) st)
      ∧ (ps.foldl (addParagraph L) st).current ≠ []
  | [], _, _, hcur, hInv, _ => ⟨hInv, hcur⟩
  | p :: ps, st, X, hcur, hInv, hne => by
    simp only [List.foldl_cons]
    have h1 := addParagraph_glue L st X p hcur hInv (hne p (List.mem_cons_self p ps))
    exact parFold_glue L ps (addParagraph L st p) (X ++ parSep ++ p) h1.2 h1.1
      (fun x hx => hne x (List.mem_cons_of_mem p hx))

theorem addSentence_empty (L : Nat) (C : List (List Char)) (s : List Char) :
    addSentence L ⟨C, []⟩ s = ⟨C, s⟩ := by
  unfold addSentence
  split <;> simp

theorem addParagraph_empty (L : Nat) (C : List (List Char)) (p : List Char) :
    addParagraph L ⟨C, []⟩ p =
      if p.length + 2 ≤ L then ⟨C, p⟩
      else (splitOn2 '.' ' ' p).foldl (addSentence L) ⟨C, []⟩ := by
  unfold addParagraph
  simp

theorem firstPar_glue (L : Nat) (p : List Char) (hp : p ≠ [])
    (hsent : ∀ s ∈ splitOn2 '.' ' ' p, s ≠ []) :
    InvG p (addParagraph L ⟨[], []⟩ p)
      ∧ (addParagraph L ⟨[], []⟩ p).current ≠ [] := by
  rw [addParagraph_empty]
  by_cases hfit : p.length + 2 ≤ L
  · rw [if_pos hfit]
    exact ⟨⟨[], rfl, by simp, rfl⟩, hp⟩
  · rw [if_neg hfit]
    cases hss : splitOn2 '.' ' ' p with
    | nil => exact absurd hss (splitOn2_ne_nil '.' ' ' p)
    | cons s1 rest =>
      simp only [List.foldl_cons, addSentence_empty]
      have hs1 : s1 ≠ [] := hsent s1 (by rw [hss]; exact List.mem_cons_self s1 rest)
      have h := sentFold_glue L rest ⟨[], s1⟩ s1 hs1 ⟨[], rfl, by simp, rfl⟩
        (fun x hx => hsent x (by rw [hss]; exact List.mem_cons_of_mem s1 hx))
      have hjoin : rest.foldl (fun a s => a ++ sentSep ++ s) s1 = p := by
        rw [← joinSep_foldl sentSep rest s1, ← hss]
        simp only [sentSep]
        exact joinSep_splitOn2 '.' ' ' p
      rw [hjoin] at h
      exact h

/-! ## Claim C5: coverage / reconstruction -/

/-- C5 counterexample: for `"aaaa. . bb"` with ceiling 5 the chunks are
`["aaaa", "bb"]`; reinserting one original separator at the single chunk
boundary cannot reproduce the text, and under either choice a period of the
input (a non-whitespace character) is lost, so the reconstruction fails
beyond whitespace normalization: the empty sentence between the two `". "`
separators is collapsed at the flush point. -/
theorem c5_counterexample :
    split_text ("aaaa. . bb".data) 5 = ["aaaa".data, "bb".data]
    ∧ reconSeps ["aaaa".data, "bb".data] [parSep] ≠ "aaaa. . bb".data
    ∧ reconSeps ["aaaa".data, "bb".data] [sentSep] ≠ "aaaa. . bb".data
    ∧ (reconSeps ["aaaa".data, "bb".data] [sentSep]).count '.'
        < ("aaaa. . bb".data).count '.'
    ∧ (reconSeps ["aaaa".data, "bb".data] [parSep]).count '.'
        < ("aaaa. . bb".data).count '.' := by
  decide

/-- C5 (amended): when every paragraph of `T` and every sentence of every
paragraph is non-empty (no adjacent, leading or trailing separators),
reinserting one original separator (`"\n\n"` or `". "`) at each chunk
boundary reconstructs `T` exactly; with empty units, separator runs collapse
at flush points and separator characters can be dropped. -/
theorem c5_reconstruction_amended (T : List Char) (L : Nat) (_hL : 0 < L)
    (hpar : ∀ p ∈ splitOn2 '\n' '\n' T, p ≠ [])
    (hsent : ∀ p ∈ splitOn2 '\n' '\n' T, ∀ s ∈ splitOn2 '.' ' ' p, s ≠ []) :
    ∃ S, (∀ s ∈ S, sepOK s) ∧ S.length + 1 = (split_text T L).length
      ∧ reconSeps (split_text T L) S = T := by
  unfold split_text
  by_cases hlen : T.length ≤ L
  · rw [if_pos hlen]
    exact ⟨[], by simp, by simp [reconSeps], rfl⟩
  · rw [if_neg hlen]
    cases hps : splitOn2 '\n' '\n' T with
    | nil => exact absurd hps (splitOn2_ne_nil '\n' '\n' T)
    | cons p1 rest =>
      simp only [List.foldl_cons]
      have hp1 : p1 ∈ splitOn2 '\n' '\n' T := by
        rw [hps]; exact List.mem_cons_self p1 rest
      have h1 := firstPar_glue L p1 (hpar p1 hp1) (hsent p1 hp1)
      have h2 := parFold_glue L rest (addParagraph L ⟨[], []⟩ p1) p1 h1.2 h1.1
        (fun x hx => hpar x (by rw [hps]; exact List.mem_cons_of_mem p1 hx))
      obtain ⟨⟨S, hlenS, hsepS, hglue⟩, hcurF⟩ := h2
      have hX : rest.foldl (fun a p => a ++ parSep ++ p) p1 = T := by
        rw [← joinSep_foldl parSep rest p1, ← hps]
        simp only [parSep]
        exact joinSep_splitOn2 '\n' '\n' T
      rw [hX] at hglue
      refine ⟨S, hsepS, ?_, ?_⟩
      · unfold finishSplit
        rw [if_neg hcurF]
        simp [hlenS]
      · unfold finishSplit
        rw [if_neg hcurF]
        rw [recon_glue _ S hlenS _]
        exact hglue

/-- C5 amended witness: a text with non-empty paragraphs and sentences,
chunked with ceiling 12, is reconstructible with one separator per boundary. -/
theorem c5_reconstruction_amended_witness :
    (0 < 12
      ∧ (∀ p ∈ splitOn2 '\n' '\n' ("Hello world. Nice day\n\nBye friend".data),
          p ≠ [])
      ∧ (∀ p ∈ splitOn2 '\n' '\n' ("Hello world. Nice day\n\nBye friend".data),
          ∀ s ∈ splitOn2 '.' ' ' p, s ≠ []))
    ∧ ∃ S, (∀ s ∈ S, sepOK s)
        ∧ S.length + 1
            = (split_text ("Hello world. Nice day\n\nBye friend".data) 12).length
        ∧ reconSeps (split_text ("Hello world. Nice day\n\nBye friend".data) 12) S
            = "Hello world. Nice day\n\nBye friend".data :=
  ⟨⟨by decide, by decide, by decide⟩,
    c5_reconstruction_amended ("Hello world. Nice day\n\nBye friend".data) 12
      (by decide) (by decide) (by decide)⟩

/-! ## Claim C4: the scorer equals the additive reference definition -/

theorem foldl_score_shift (tl : List Char) :
    ∀ (table : List (List Char × Int)) (x : Int),
    table.foldl (fun sc kp => if containsSub kp.1 tl then sc + kp.2 else sc) x
      = x + keywordPenaltySum table tl
  | [], x => by simp [keywordPenaltySum]
  | kp :: t, x => by
    unfold keywordPenaltySum
    simp only [List.foldl_cons]
    rw [foldl_score_shift tl t (if containsSub kp.1 tl then x + kp.2 else x),
      foldl_score_shift tl t (if containsSub kp.1 tl then 0 + kp.2 else 0)]
    split <;> omega

/-- C4 counterexample: the secondary-backend scorer `score_page`
(`wikipedia_bot_fixed.py`) does not satisfy the claimed length heuristic: a
3-character title matching nothing scores 10 (its `< 20 → +10` rule), while
the claimed additive reference (`< 15 → +15`, `> 30 → -10`) gives 15. -/
theorem c4_counterexample :
    score_page ("Abc".data) ("xyz".data) = 10
    ∧ scoreRef ("Abc".data) ("xyz".data) = 15
    ∧ score_page ("Abc".data) ("xyz".data) ≠ scoreRef ("Abc".data) ("xyz".data) := by
  decide

/-- C4 (amended): the primary scorer `score_page_title` (`wikipedia_bot.py`)
equals the additive reference definition: base relevance (+100 exact / +50
substring / 0), plus the keyword penalties, plus the separator penalty or
`(band)`/`(musician)` bonus, plus +15 for titles shorter than 15 characters
and -10 for titles longer than 30. -/
theorem c4_primary_scorer_additive (page_title search_term : List Char) :
    score_page_title page_title search_term = scoreRef page_title search_term := by
  simp only [score_page_title, scoreRef, baseRelevance, separatorAdj]
  rw [foldl_score_shift]
  split_ifs <;> omega

/-! ## Claim C2: stage-1 candidate selection -/

/-- C2: with query `"X"` and primary-search candidates `["Y", "X"]`,
`wikipedia_bot.py` selects `"Y"`: the comprehension
`[(score_page_title(title, title), title) for title in page_titles]` shadows
the query, so both candidates score 115 against themselves and the stable
sort keeps `"Y"` first, although `"Y"`'s score against the query (15) is not
maximal (`"X"` scores 115). -/
theorem c2_selection_bug_eval :
    best_page_title ["Y".data, "X".data] ("X".data) = "Y".data
    ∧ score_page_title ("Y".data) ("X".data)
        < score_page_title ("X".data) ("X".data) := by
  decide

/-! ## Claim C10: totality of the stage-1 fetch -/

/-- C10: `get_wikipedia_page_direct` is total over its possible backend
responses: a search failure, an empty candidate list, or a content-fetch
failure each yield the null result, and the outcome is always either the
null result or a complete record. -/
theorem c10_direct_total (env : DirectEnv) (title : List Char) :
    (env.searchResp = Except.error () →
      get_wikipedia_page_direct env title = none)
    ∧ (∀ ts, env.searchResp = Except.ok ts → ts = [] →
        get_wikipedia_page_direct env title = none)
    ∧ (∀ ts, env.searchResp = Except.ok ts → ts ≠ [] →
        env.contentResp (best_page_title ts title) = Except.error () →
        get_wikipedia_page_direct env title = none)
    ∧ (get_wikipedia_page_direct env title = none
        ∨ ∃ d : PageData, get_wikipedia_page_direct env title = some d) := by
  refine ⟨?_, ?_, ?_, ?_⟩
  · intro h
    simp [get_wikipedia_page_direct, h]
  · intro ts h1 h2
    simp [get_wikipedia_page_direct, h1, h2]
  · intro ts h1 h2 h3
    simp [get_wikipedia_page_direct, h1, h2, h3]
  · cases h : get_wikipedia_page_direct env title with
    | none => exact Or.inl rfl
    | some d => exact Or.inr ⟨d, rfl⟩

/-- C10 witness: a failing search yields the null result. -/
theorem c10_direct_total_witness :
    get_wikipedia_page_direct ⟨Except.error (), fun _ => Except.error ()⟩ [] = none :=
  (c10_direct_total ⟨Except.error (), fun _ => Except.error ()⟩ []).1 rfl

/-! ## Claim C9: first-option disambiguation policy -/

/-- C9: when stage 1 yields nothing and the library reports a disambiguation
with a non-empty option list, `get_article` fetches exactly the first option
(no scoring), and a successful fetch is the resolved outcome. -/
theorem c9_first_option (env : ArticleEnv) (title o : List Char)
    (rest : List (List Char)) (p : List Char)
    (hdirect : get_wikipedia_page_direct env.denv title = none)
    (hlib : env.libPage = LibFetch.disambig (o :: rest))
    (hfetch : env.fetchPlain o = Except.ok p) :
    get_article env title = Reply.articleSummary p := by
  simp [get_article, hdirect, hlib, hfetch]

/-- C9 witness: a concrete environment whose first disambiguation option
fetches successfully. -/
theorem c9_first_option_witness :
    get_article
      { denv := ⟨Except.error (), fun _ => Except.error ()⟩,
        libPage := LibFetch.disambig
          ["Mercury (planet)".data, "Mercury (element)".data],
        fetchPlain := fun _ => Except.ok ("Mercury (planet)".data),
        searchResp := Except.error (),
        fetchAuto := fun _ => Except.error (),
        nfSearchResp := Except.error () }
      ("Mercury".data)
      = Reply.articleSummary ("Mercury (planet)".data) :=
  c9_first_option _ ("Mercury".data) ("Mercury (planet)".data)
    ["Mercury (element)".data] ("Mercury (planet)".data) rfl rfl rfl

/-! ## Claim C3: error propagation out of the resolution pipeline -/

/-- C3 counterexample: with stage 1 empty and the library reporting a
disambiguation whose first option fails to fetch, `get_article` produces the
generic error reply (the outer `except Exception` path), not the not-found
guidance outcome: the claim that a failed fetch of the first disambiguation
option never surfaces as a raw error is false. -/
theorem c3_counterexample :
    get_article
      { denv := ⟨Except.error (), fun _ => Except.error ()⟩,
        libPage := LibFetch.disambig ["Mercury (planet)".data],
        fetchPlain := fun _ => Except.error (),
        searchResp := Except.error (),
        fetchAuto := fun _ => Except.error (),
        nfSearchResp := Except.error () }
      ("Mercury".data)
      = Reply.errorReply := rfl

/-- C3 (amended): the generic error reply is produced exactly when stage 1
yields nothing and the library fetch raises something other than
`PageError`: an exception that is neither `DisambiguationError` nor
`PageError`, a disambiguation with an empty option list, or a failed fetch
of the first disambiguation option.  All other stage failures stay inside
the pipeline, and the terminal failure after all stages is the not-found
guidance outcome. -/
theorem c3_error_reply_characterization (env : ArticleEnv) (title : List Char) :
    get_article env title = Reply.errorReply ↔
      (get_wikipedia_page_direct env.denv title = none ∧
        (env.libPage = LibFetch.otherError
          ∨ env.libPage = LibFetch.disambig []
          ∨ ∃ o rest, env.libPage = LibFetch.disambig (o :: rest)
              ∧ env.fetchPlain o = Except.error ())) := by
  unfold get_article
  cases hd : get_wikipedia_page_direct env.denv title with
  | some d => simp
  | none =>
    cases hl : env.libPage with
    | ok p => simp
    | otherError => simp
    | pageError =>
      cases hs : searchStage env title with
      | some p => simp
      | none => simp
    | disambig opts =>
      cases opts with
      | nil => simp
      | cons o rest =>
        cases hf : env.fetchPlain o with
        | ok p => simp [hf]
        | error u => cases u; simp [hf]

/-! ## Claim C8: not-found suggestion list -/

/-- C8: the suggestion list of `handle_page_not_found` is exactly the first
3 results of the 8-result suggestion search that differ case-insensitively
from the query, in original search order (an order-preserving sublist, no
re-scoring); when no results remain the plain guidance outcome with an empty
suggestion list is produced. -/
theorem c8_suggestions (title : List Char) (search_results : List (List Char)) :
    (suggestionsSpec search_results title ≠ [] →
      handle_page_not_found (Except.ok search_results) title
        = NFReply.suggestions (suggestionsSpec search_results title))
    ∧ (suggestionsSpec search_results title = [] →
      handle_page_not_found (Except.ok search_results) title = NFReply.guidance)
    ∧ (suggestionsSpec search_results title).length ≤ 3
    ∧ (∀ s ∈ suggestionsSpec search_results title, toLowerL s ≠ toLowerL title)
    ∧ (suggestionsSpec search_results title).Sublist search_results := by
  simp only [handle_page_not_found, suggestionsSpec]
  refine ⟨?_, ?_, ?_, ?_, ?_⟩
  · intro hne
    have hfne :
        search_results.filter (fun r => decide (toLowerL r ≠ toLowerL title)) ≠ [] := by
      intro h0
      rw [h0] at hne
      simp at hne
    rw [if_neg hfne]
  · intro he
    have hf :
        search_results.filter (fun r => decide (toLowerL r ≠ toLowerL title)) = [] := by
      cases hc : search_results.filter (fun r => decide (toLowerL r ≠ toLowerL title)) with
      | nil => rfl
      | cons x xs =>
        rw [hc] at he
        simp at he
    rw [if_pos hf]
  · rw [List.length_take]
    exact min_le_left _ _
  · intro s hs
    have hmem := List.take_subset 3 _ hs
    have hp := List.of_mem_filter hmem
    exact of_decide_eq_true hp
  · exact (List.take_sublist 3 _).trans (List.filter_sublist search_results)

/-- C8 witness: a search result equal to the query up to case is dropped and
the first three remaining results are suggested in order. -/
theorem c8_suggestions_witness :
    handle_page_not_found
      (Except.ok ["X".data, "Abc".data, "Def".data, "Ghi".data, "Jkl".data])
      ("x".data)
      = NFReply.suggestions ["Abc".data, "Def".data, "Ghi".data] := by
  have h :=
    (c8_suggestions ("x".data)
      ["X".data, "Abc".data, "Def".data, "Ghi".data, "Jkl".data]).1 (by decide)
  rw [h]
  decide
